import Mathlib

/-!
# Verification of the GeometrieConverter structural-assembly core

Shallow embedding of `src/python_scripts/misc.py` (segment validation, node
interpolation, frustum geometry, MP/TP junction resolution, assembly) and of
the database-replacement path of `src/python_scripts/db_handling.py`.

Conventions of the embedding:
* pandas DataFrames of segment tables become `List Segment` (one record per
  row, in row order); raw (pre-validation) tables become `List SegRowRaw`
  whose cells can be NaN or non-numeric text, mirroring `pd.isna` /
  `astype(float)` behaviour.
* Python floats are modelled as exact numbers: table data as `ℚ`, the
  π-based frustum geometry (`calc_weight`, `center_of_mass_hollow_frustum`)
  over `ℝ` with `Real.pi`.
* Excel side effects (`ex.show_message_box`, `ex.write_df_to_table`) become
  explicit `Message` / `WriteEvent` values accumulated in the result, and the
  two Yes/No message boxes become boolean fields of `UserAnswers`.
* An uncaught Python exception (e.g. `IndexError` from `[...][0]` on an empty
  list, or `values[-1]` on an empty column) is the `crashed` outcome; an early
  `return` after an error box is the `halted` outcome.
-/

namespace GC

/-- A raw table cell, as read from Excel before validation: a number, a NaN,
or non-numeric text (`txt` stands for a string that `astype(float)` cannot
convert; numeric strings, which Python would convert, are modelled as `num`). -/
inductive Cell
  | num (q : ℚ)
  | nan
  | txt (s : String)
deriving DecidableEq, Repr

def cellIsNan : Cell → Bool
  | .nan => true
  | _ => false

def cellIsNum : Cell → Bool
  | .num _ => true
  | _ => false

/-- Numeric value of a cell after `astype(float)`; only used on cells that
`valid_data` has accepted, so the fallback value is never reached there. -/
def cellToQ : Cell → ℚ
  | .num q => q
  | _ => 0

def cellToQOpt : Cell → Option ℚ
  | .num q => some q
  | _ => none

/-- One raw row of a structure DATA table, columns
`Section`, `Top [m]`, `Bottom [m]`, `D, top [m]`, `D, bottom [m]`, `t [mm]`. -/
structure SegRowRaw where
  sec : Cell
  top : Cell
  bottom : Cell
  dTop : Cell
  dBottom : Cell
  t : Cell
deriving DecidableEq, Repr

def rowCells (r : SegRowRaw) : List Cell :=
  [r.sec, r.top, r.bottom, r.dTop, r.dBottom, r.t]

/-- `misc.valid_data`: fails if any value is NaN (`pd.isna(data.values).any()`),
then if `astype(float)` fails (any non-numeric cell); the returned DataFrame
(converted on success, original on failure) is modelled by keeping the raw
table and converting separately with `toSegments`. -/
def valid_data (df : List SegRowRaw) : Bool :=
  if df.any (fun r => (rowCells r).any cellIsNan) then false
  else df.all (fun r => (rowCells r).all cellIsNum)

/-- One segment row of a converted structure table.  `sec` is the `Section`
column (`none` models the NaN left in a row freshly inserted by
`add_element`); `affiliation` is the `Affiliation` column, present only once a
structure has been tagged (`none` models the absent column). -/
structure Segment where
  sec : Option ℚ
  top : ℚ
  bottom : ℚ
  dTop : ℚ
  dBottom : ℚ
  t : ℚ
  affiliation : Option String
deriving DecidableEq, Repr

/-- `astype(float)` conversion of one raw row (no `Affiliation` column yet). -/
def toSeg (r : SegRowRaw) : Segment :=
  ⟨cellToQOpt r.sec, cellToQ r.top, cellToQ r.bottom, cellToQ r.dTop,
    cellToQ r.dBottom, cellToQ r.t, none⟩

def toSegments (df : List SegRowRaw) : List Segment :=
  df.map toSeg

/-- `misc.sanity_check_structure`, the list comprehension collecting
`df.iloc[i, 0]` (the `Section` value of the upper row of each adjacent pair)
whenever `Top [m]` of the next row minus `Bottom [m]` of the current row is
not zero. -/
def misalignedSections (df : List Segment) : List (Option ℚ) :=
  (df.zip (df.drop 1)).filterMap
    (fun p => if p.2.top - p.1.bottom = 0 then none else some p.1.sec)

/-- `misc.sanity_check_structure`: `True` iff every adjacent pair satisfies
`Top [m][i+1] == Bottom [m][i]` exactly; otherwise the offending sections are
reported in a message box and `False` is returned. -/
def sanity_check_structure (df : List Segment) : Bool :=
  (misalignedSections df).isEmpty

/-- `misc.check_convert_structure`.  After `valid_data` succeeds the source
executes `success = sanity_check_structure` — it assigns the *function object*
to `success` instead of calling it, and a function object is truthy, so the
caller's `all([...])` treats the table as accepted.  The embedding therefore
returns `true` without consulting `sanity_check_structure`. -/
def check_convert_structure (df : List SegRowRaw) : Bool × List SegRowRaw :=
  if valid_data df then (true, df) else (false, df)

/-! ## Node interpolator: `misc.add_element` -/

/-- The two failure modes of `add_element`, distinguished in the source only
by the printed diagnostic (`"interpolation not possible, outside bounds"` /
`"interpolation not possible, structure not consecutive"`). -/
inductive InterpError
  | outsideBounds
  | notConsecutive
deriving DecidableEq, Repr

/-- `df.loc[(df["Top [m]"] == z_new) | (df["Bottom [m]"] == z_new)]` nonempty. -/
def hasBoundary (z : ℚ) (df : List Segment) : Bool :=
  df.any (fun s => s.top == z || s.bottom == z)

def straddles (z : ℚ) (s : Segment) : Bool :=
  z < s.top && s.bottom < z

/-- Positions (with their rows) of segments strictly straddling `z`,
`df.loc[(df["Top [m]"] > z_new) & (df["Bottom [m]"] < z_new)].index`. -/
def straddlers (df : List Segment) (z : ℚ) : List (ℕ × Segment) :=
  df.enum.filter (fun p => straddles z p.2)

/-- `misc.add_element` together with its printed diagnostic.  On success the
matched segment's `Bottom [m]` is set to `z_new` (its diameters are left
untouched) and a new row — `Section` NaN, same `t [mm]` and `Affiliation`,
`Top [m] = z_new`, `Bottom [m]` and `D, bottom [m]` of the matched segment,
`D, top [m]` linearly interpolated at `z_new` — is inserted directly after it. -/
def add_element_run (df : List Segment) (z_new : ℚ) :
    List Segment × Option InterpError :=
  if hasBoundary z_new df then (df, none)
  else
    match straddlers df z_new with
    | [] => (df, some .outsideBounds)
    | [(i, s)] =>
        let inter_x_rel := (z_new - s.bottom) / (s.top - s.bottom)
        let d_inter := (s.dTop - s.dBottom) * inter_x_rel + s.dBottom
        let new_row : Segment :=
          ⟨none, z_new, s.bottom, d_inter, s.dBottom, s.t, s.affiliation⟩
        let updated := df.set i { s with bottom := z_new }
        (updated.take (i + 1) ++ [new_row] ++ updated.drop (i + 1), none)
    | _ => (df, some .notConsecutive)

/-- The DataFrame returned by `misc.add_element` (in every branch the source
returns a table, never `None`, despite its docstring). -/
def add_element (df : List Segment) (z_new : ℚ) : List Segment :=
  (add_element_run df z_new).1

/-! ## Frustum geometry: `misc.calc_weight`, `misc.center_of_mass_hollow_frustum` -/

/-- `misc.calc_weight`: density times the analytic hollow-frustum volume
`(1/3)·π·h/4·(d1² + d1·d2 + d2² − (d1−2t)² − (d1−2t)(d2−2t) − (d2−2t)²)`
with `h = |z_top − z_bot|`, `d1 = d_top`, `d2 = d_bot`. -/
noncomputable def calc_weight (rho t z_top z_bot d_top d_bot : ℝ) : ℝ :=
  let h := |z_top - z_bot|
  let d1 := d_top
  let d2 := d_bot
  let volume := (1 / 3) * Real.pi * h / 4 *
    (d1 ^ 2 + d1 * d2 + d2 ^ 2
      - (d1 - 2 * t) ^ 2
      - (d1 - 2 * t) * (d2 - 2 * t)
      - (d2 - 2 * t) ^ 2)
  rho * volume

/-- The local `volume` helper inside `misc.center_of_mass_hollow_frustum`:
volume of a solid frustum of bottom/top radii `r1, r2` and height `h`. -/
noncomputable def frustumVolume (r1 r2 h : ℝ) : ℝ :=
  (Real.pi * h / 3) * (r1 ^ 2 + r1 * r2 + r2 ^ 2)

/-- The local `com_z_rel` helper inside `misc.center_of_mass_hollow_frustum`:
centroid of a solid frustum measured from its bottom. -/
noncomputable def frustumComRel (r1 r2 h : ℝ) : ℝ :=
  h * (r1 ^ 2 + 2 * r1 * r2 + 3 * r2 ^ 2) / (4 * (r1 ^ 2 + r1 * r2 + r2 ^ 2))

/-- `misc.center_of_mass_hollow_frustum`: composite centroid of a hollow
frustum, outer solid frustum (radii `r + t`) minus inner solid frustum
(`d1`, `d2` are the inner bottom/top diameters per the source docstring). -/
noncomputable def center_of_mass_hollow_frustum (d1 d2 z_bot z_top t : ℝ) : ℝ :=
  let h := z_top - z_bot
  let r1 := d1 / 2
  let r2 := d2 / 2
  let R1 := r1 + t
  let R2 := r2 + t
  let V_outer := frustumVolume R1 R2 h
  let V_inner := frustumVolume r1 r2 h
  let z_outer_rel := frustumComRel R1 R2 h
  let z_inner_rel := frustumComRel r1 r2 h
  let z_cm_rel := (z_outer_rel * V_outer - z_inner_rel * V_inner) / (V_outer - V_inner)
  z_bot + z_cm_rel

/-! ## Assembler: `misc.assemble_structure`

The Excel reads become explicit inputs (`AssembleInput`), the message boxes
become `Message` values (Yes/No boxes additionally consume a boolean from
`UserAnswers`), and each `ex.write_df_to_table` into the `StructureOverview`
sheet becomes a `WriteEvent`. -/

/-- `misc.assemble_structure`, inner helper `all_same_ignoring_none`. -/
def all_same_ignoring_none (values : List (Option String)) : Bool :=
  match values.filterMap id with
  | [] => true
  | v :: rest => rest.all (fun w => w == v)

/-- One row of an `*_META` table (only the fields the core reads). -/
structure MetaRow where
  heightRef : Option String
  waterDepth : Option ℚ
deriving DecidableEq, Repr

/-- One row of an `*_MASSES` table.  `bottom = none` models a non-numeric
`Bottom [m]` entry (a point mass), which the tower shift leaves untouched. -/
structure MassRow where
  top : ℚ
  bottom : Option ℚ
  mass : ℚ
  comment : String
deriving DecidableEq, Repr

/-- A mass row after the `Affiliation` column has been inserted. -/
structure TaggedMass where
  affiliation : String
  row : MassRow
deriving DecidableEq, Repr

/-- Answers the user gives to the two `vbYesNo` message boxes. -/
structure UserAnswers where
  refConflictYes : Bool
  groutedYes : Bool
deriving DecidableEq, Repr

inductive CrashKind
  | indexError
deriving DecidableEq, Repr

/-- The message boxes `assemble_structure` can show, in source order. -/
inductive Message
  | invalidData (tbl : String)
  | noRNA
  | rnaMissing
  | refsDiffer
  | refsSame
  | gap (g : ℚ)
  | overlapPrompt (o : ℚ)
  | underConstruction
  | perfectFit
deriving DecidableEq, Repr

/-- The tables `assemble_structure` writes to the `StructureOverview` sheet. -/
inductive WriteEvent
  | rna (id : String)
  | skirt (tbl : List Segment)
  | skirtPointMass (elev mass : ℝ)
  | wholeStructure (tbl : List (ℕ × Segment))
  | allAddedMasses (tbl : List TaggedMass)
  | structureMeta (heightRef : Option String) (seabed : Option ℚ)

/-- Everything but the `RNA` echo is an assembly output table. -/
def isMainOutput : WriteEvent → Bool
  | .rna _ => false
  | _ => true

inductive AssembleOutcome
  | crashed (k : CrashKind)
  | halted
  | finished
deriving DecidableEq, Repr

structure AssembleResult where
  outcome : AssembleOutcome
  writes : List WriteEvent
  messages : List Message

/-- The data `assemble_structure` reads from the workbook, plus its `rho`
parameter and the user's answers. -/
structure AssembleInput where
  mpRaw : List SegRowRaw
  tpRaw : List SegRowRaw
  towerRaw : List SegRowRaw
  mpMeta : MetaRow
  tpMeta : MetaRow
  towerMeta : MetaRow
  rnaConfig : String
  rnaIds : List String
  mpMasses : List MassRow
  tpMasses : List MassRow
  towerMasses : List MassRow
  rho : ℝ
  ans : UserAnswers

/-- `DATA.insert(0, "Affiliation", a)`. -/
def tagAffil (a : String) (l : List Segment) : List Segment :=
  l.map (fun s => { s with affiliation := some a })

/-- Elevation shift of segments by the tower offset. -/
def shiftSegs (off : ℚ) (l : List Segment) : List Segment :=
  l.map (fun s => { s with top := s.top + off, bottom := s.bottom + off })

/-- `MASSES.insert(0, "Affiliation", a)`. -/
def tagMass (a : String) (l : List MassRow) : List TaggedMass :=
  l.map (fun r => ⟨a, r⟩)

def insertMassDesc (x : TaggedMass) : List TaggedMass → List TaggedMass
  | [] => [x]
  | y :: ys => if y.row.top < x.row.top then x :: y :: ys else y :: insertMassDesc x ys

/-- `ALL_MASSES.sort_values(ascending=False, by=["Top [m]"])` (an insertion
sort; pandas' quicksort may order rows with equal `Top [m]` differently, but
no property here depends on the order among ties). -/
def sortMassesDesc : List TaggedMass → List TaggedMass
  | [] => []
  | x :: xs => insertMassDesc x (sortMassesDesc xs)

/-- `WHOLE_STRUCTURE.rename(columns={"Section": "local Section"})` followed by
`insert(0, "Section", index + 1)`: the original `sec` field of each row stays
as the `local Section` column, the new 1-based position becomes `Section`. -/
def renumber (l : List Segment) : List (ℕ × Segment) :=
  l.enum.map (fun p => (p.1 + 1, p.2))

/-- Skirt group extracted from the TP table after node insertion at `mpTop`:
`SKIRT = TP_DATA.loc[TP_DATA["Top [m]"] <= MP_top]`, then
`SKIRT.loc[:, "Affiliation"] = "SKIRT"` and `SKIRT.drop("Section", axis=1)`
(the dropped column is modelled by clearing `sec`). -/
def skirtSegments (tp : List Segment) (mpTop : ℚ) : List Segment :=
  ((add_element tp mpTop).filter (fun s => s.top ≤ mpTop)).map
    (fun s => { s with affiliation := some "SKIRT", sec := none })

/-- `TP_DATA = TP_DATA.loc[TP_DATA["Bottom [m]"] >= MP_top]` (applied to the
table returned by `add_element`). -/
def tpTruncated (tp : List Segment) (mpTop : ℚ) : List Segment :=
  (add_element tp mpTop).filter (fun s => mpTop ≤ s.bottom)

/-- Per-skirt-segment masses,
`calc_weight(rho, t/1000, top, bottom, d_top, d_bottom) / 1000`. -/
noncomputable def skirtMassList (rho : ℝ) (skirt : List Segment) : List ℝ :=
  skirt.map (fun s =>
    calc_weight rho ((s.t : ℝ) / 1000) (s.top : ℝ) (s.bottom : ℝ)
      (s.dTop : ℝ) (s.dBottom : ℝ) / 1000)

/-- Per-skirt-segment centroids,
`center_of_mass_hollow_frustum(d_bottom, d_top, bottom, top, t/1000)`. -/
noncomputable def skirtHeightList (skirt : List Segment) : List ℝ :=
  skirt.map (fun s =>
    center_of_mass_hollow_frustum (s.dBottom : ℝ) (s.dTop : ℝ) (s.bottom : ℝ)
      (s.top : ℝ) ((s.t : ℝ) / 1000))

/-- `sum([m * h for m, h in zip(skirt_weights, skirt_heihgts)]) / skirt_weight`. -/
noncomputable def skirtCenterOfMass (rho : ℝ) (skirt : List Segment) : ℝ :=
  (List.zipWith (fun m h => m * h) (skirtMassList rho skirt) (skirtHeightList skirt)).sum
    / (skirtMassList rho skirt).sum

/-- Lines 311-341 of `misc.py`: tower alignment, final concatenation and
renumbering, added-mass aggregation, and the closing writes.  `whole` is the
`WHOLE_STRUCTURE` accumulated by the junction stage.  `values[0]` /
`values[-1]` on an empty table raise `IndexError`. -/
noncomputable def assembleTower (inp : AssembleInput) (w : List WriteEvent)
    (m : List Message) (resolvedRef : Option String) (seabed : Option ℚ)
    (whole towerT : List Segment) : AssembleResult :=
  match whole.head?, towerT.getLast? with
  | some wh, some twl =>
      let tower_offset := wh.top - twl.bottom
      let towerSh := shiftSegs tower_offset towerT
      let whole2 := towerSh ++ whole
      let numbered := renumber whole2
      let towM := inp.towerMasses.map (fun r =>
        { r with top := r.top + tower_offset,
                 bottom := r.bottom.map (fun b => b + tower_offset) })
      let allM := sortMassesDesc
        (tagMass "MP" inp.mpMasses ++ tagMass "TP" inp.tpMasses ++ tagMass "TOWER" towM)
      ⟨.finished,
        w ++ [.wholeStructure numbered, .allAddedMasses allM,
              .structureMeta resolvedRef seabed], m⟩
  | _, _ => ⟨.crashed .indexError, w, m⟩

/-- `STRUCTURE_META`'s `Seabed level` value, `-float(water_depth)` when set. -/
def seabedOf (inp : AssembleInput) : Option ℚ :=
  inp.mpMeta.waterDepth.map (fun d => -d)

/-- `MP_DATA` after conversion and `insert(0, "Affiliation", "MP")`. -/
def mpSegs (inp : AssembleInput) : List Segment :=
  tagAffil "MP" (toSegments inp.mpRaw)

def tpSegs (inp : AssembleInput) : List Segment :=
  tagAffil "TP" (toSegments inp.tpRaw)

def towerSegs (inp : AssembleInput) : List Segment :=
  tagAffil "TOWER" (toSegments inp.towerRaw)

/-- The three `Height Reference` meta entries, in MP, TP, TOWER order. -/
def metaRefs (inp : AssembleInput) : List (Option String) :=
  [inp.mpMeta.heightRef, inp.tpMeta.heightRef, inp.towerMeta.heightRef]

/-- Lines 243-309 of `misc.py`: seabed level, affiliation tagging, range
extraction (crashing on an empty MP or TP table), the MP/TP gap check, and
the junction resolution (grouted placeholder / skirt extraction / perfect
fit), continuing with `assembleTower`. -/
noncomputable def assembleJunction (inp : AssembleInput) (w : List WriteEvent)
    (m : List Message) (resolvedRef : Option String) : AssembleResult :=
  let seabed := seabedOf inp
  let mpT := mpSegs inp
  let tpT := tpSegs inp
  let towerT := towerSegs inp
  match mpT.head?, tpT.getLast? with
  | some mph, some tpl =>
      let mp_top := mph.top
      let tp_bot := tpl.bottom
      if mp_top < tp_bot then
        ⟨.halted, w, m ++ [.gap (tp_bot - mp_top)]⟩
      else if tp_bot < mp_top then
        let m2 := m ++ [.overlapPrompt (mp_top - tp_bot)]
        if inp.ans.groutedYes then
          -- "under construction...": TP is silently dropped and the tower is
          -- appended directly onto the MP.
          assembleTower inp w (m2 ++ [.underConstruction]) resolvedRef seabed mpT towerT
        else
          let skirt := skirtSegments tpT mp_top
          let w2 := w ++ [.skirt skirt,
            .skirtPointMass (skirtCenterOfMass inp.rho skirt) (skirtMassList inp.rho skirt).sum]
          assembleTower inp w2 m2 resolvedRef seabed (tpTruncated tpT mp_top ++ mpT) towerT
      else
        assembleTower inp w (m ++ [.perfectFit]) resolvedRef seabed (tpT ++ mpT) towerT
  | _, _ => ⟨.crashed .indexError, w, m⟩

/-- Lines 227-241 of `misc.py`: height-reference reconciliation.  When the
references disagree the user is asked (No aborts); when they agree the source
records `[v for v in refs if v is not None][0]`, which raises `IndexError`
when all three references are `None`. -/
noncomputable def assembleRefs (inp : AssembleInput) (w : List WriteEvent)
    (m : List Message) : AssembleResult :=
  let refs := metaRefs inp
  if all_same_ignoring_none refs then
    match refs.filterMap id with
    | [] => ⟨.crashed .indexError, w, m⟩
    | v :: _ => assembleJunction inp w (m ++ [.refsSame]) (some v)
  else
    if inp.ans.refConflictYes then
      assembleJunction inp w (m ++ [.refsDiffer]) none
    else ⟨.halted, w, m ++ [.refsDiffer]⟩

/-- `misc.assemble_structure`: validation of the three structure tables, RNA
selection, then the height-reference, junction and tower stages. -/
noncomputable def assemble_structure (inp : AssembleInput) : AssembleResult :=
  let okMP := (check_convert_structure inp.mpRaw).1
  let okTP := (check_convert_structure inp.tpRaw).1
  let okTW := (check_convert_structure inp.towerRaw).1
  let m0 : List Message :=
    (if okMP then [] else [.invalidData "MP"])
      ++ (if okTP then [] else [.invalidData "TP"])
      ++ (if okTW then [] else [.invalidData "TOWER"])
  if ¬ (okMP && okTP && okTW) then ⟨.halted, [], m0⟩
  else if inp.rnaConfig = "" then
    assembleRefs inp [] (m0 ++ [.noRNA])
  else if inp.rnaIds.contains inp.rnaConfig then
    assembleRefs inp [.rna inp.rnaConfig] m0
  else ⟨.halted, [], m0 ++ [.rnaMissing]⟩

/-! ## Database replacement path: `db_handling.py`

The SQLite database is a state value: the `META` table plus the named data
tables.  Only the functions on the `replace_db_element` path are embedded. -/

/-- One row of the `META` table: its `Identifier` column plus the remaining
columns. -/
structure DbMetaRow where
  identifier : String
  rest : List Cell
deriving DecidableEq, Repr

/-- The SQLite database state. -/
structure DB where
  meta : List DbMetaRow
  tables : List (String × List (List Cell))
deriving DecidableEq, Repr

/-- `db_handling.drop_db_table`: `DROP TABLE IF EXISTS "{Identifier}"`. -/
def drop_db_table (db : DB) (identifier : String) : DB :=
  { db with tables := db.tables.filter (fun p => p.1 ≠ identifier) }

/-- `db_handling.create_db_table` with `if_exists='replace'`. -/
def create_db_table_replace (db : DB) (identifier : String)
    (df : List (List Cell)) : DB :=
  { db with tables :=
      (db.tables.filter (fun p => p.1 ≠ identifier)) ++ [(identifier, df)] }

def hasNanTable (df : List (List Cell)) : Bool :=
  df.any (fun r => r.any cellIsNan)

/-- `db_handling.write_db_element_data`: rejects structure data containing
NaN (the added-masses check is commented out in the source), otherwise
replaces the two tables `change_id` and `change_id + "__ADDED_MASSES"`. -/
def write_db_element_data (db : DB) (change_id : String)
    (structure_data added_masses_data : List (List Cell)) : Bool × DB :=
  if hasNanTable structure_data then (false, db)
  else
    (true,
      create_db_table_replace
        (create_db_table_replace db change_id structure_data)
        (change_id ++ "__ADDED_MASSES") added_masses_data)

/-- `db_handling.replace_db_element`: replaces the `old_id` row of the
in-memory META with `meta_infos`, rejects a duplicated new identifier, then
drops the old data table, validates/writes the new data, and only on success
rewrites the stored META. -/
def replace_db_element (db : DB) (structure_data added_masses_data : List (List Cell))
    (meta_infos : DbMetaRow) (old_id : String) : Bool × DB :=
  let META := db.meta
  let new_id := meta_infos.identifier
  let META2 := META.map (fun r => if r.identifier = old_id then meta_infos else r)
  if 1 < (META2.filter (fun r => r.identifier = new_id)).length then (false, db)
  else
    let db1 := drop_db_table db old_id
    let res := write_db_element_data db1 new_id structure_data added_masses_data
    if ¬ res.1 then (false, res.2)
    else (true, { res.2 with meta := META2 })

/-! ## Concrete tables used by the counterexample/bug theorems -/

/-- An MP table whose two sections do not meet: section 1 ends at 5 but
section 2 starts at 4. -/
def mpGapTable : List SegRowRaw :=
  [⟨.num 1, .num 10, .num 5, .num 5, .num 5, .num 50⟩,
   ⟨.num 2, .num 4, .num 0, .num 5, .num 5, .num 50⟩]

def tpFitTable : List SegRowRaw :=
  [⟨.num 1, .num 12, .num 10, .num 5, .num 5, .num 50⟩]

def towerSmallTable : List SegRowRaw :=
  [⟨.num 1, .num 2, .num 0, .num 3, .num 3, .num 30⟩]

def metaLAT : MetaRow := ⟨some "LAT", none⟩

/-- A full assembly input whose MP table is discontinuous but otherwise
assembles cleanly (perfect MP/TP fit, no RNA, agreeing references). -/
def inpDiscontinuousMP : AssembleInput :=
  ⟨mpGapTable, tpFitTable, towerSmallTable, metaLAT, metaLAT, metaLAT,
    "", [], [], [], [], 1, ⟨true, false⟩⟩

/-- A TP table lying entirely below the MP top elevation 12, so the skirt
path's `add_element(TP_DATA, MP_top)` finds no straddling segment. -/
def tpLowTable : List SegRowRaw :=
  [⟨.num 1, .num 10, .num 8, .num 5, .num 5, .num 50⟩]

def mpTallTable : List SegRowRaw :=
  [⟨.num 1, .num 12, .num 0, .num 5, .num 5, .num 50⟩]

/-- An input whose skirt-path interpolation at `MP_top = 12` fails (outside
TP bounds: TP spans 8..10) while the junction overlap triggers the skirt
branch (`groutedYes = false`). -/
def inpInterpFails : AssembleInput :=
  ⟨mpTallTable, tpLowTable, towerSmallTable, metaLAT, metaLAT, metaLAT,
    "", [], [], [], [], 1, ⟨true, false⟩⟩

/-- A single-segment MP spanning 0..10. -/
def mpPlainTable : List SegRowRaw :=
  [⟨.num 1, .num 10, .num 0, .num 5, .num 5, .num 50⟩]

/-- A TP spanning 8..12, i.e. overlapping an MP top of 10 by 2 m. -/
def tpOverlapTable : List SegRowRaw :=
  [⟨.num 1, .num 12, .num 8, .num 5, .num 5, .num 50⟩]

/-- A TP spanning 12..14, i.e. hovering 2 m above an MP top of 10. -/
def tpHoverTable : List SegRowRaw :=
  [⟨.num 1, .num 14, .num 12, .num 5, .num 5, .num 50⟩]

/-- Gap scenario input: MP top 10, TP bottom 12. -/
def inpGap : AssembleInput :=
  ⟨mpPlainTable, tpHoverTable, towerSmallTable, metaLAT, metaLAT, metaLAT,
    "", [], [], [], [], 1, ⟨true, false⟩⟩

/-- Overlap scenario input resolved as skirt: MP top 10, TP bottom 8,
`groutedYes = false`. -/
def inpOverlap : AssembleInput :=
  ⟨mpPlainTable, tpOverlapTable, towerSmallTable, metaLAT, metaLAT, metaLAT,
    "", [], [], [], [], 1, ⟨true, false⟩⟩

/-- Input whose three height references are all `None`. -/
def inpAllNoneRefs : AssembleInput :=
  ⟨mpPlainTable, tpFitTable, towerSmallTable, ⟨none, none⟩, ⟨none, none⟩,
    ⟨none, none⟩, "", [], [], [], [], 1, ⟨true, false⟩⟩

/-- C1.  The validation pipeline accepts a discontinuous structure: the
source line `success = sanity_check_structure` stores the function object
(which is truthy) instead of calling it, so `check_convert_structure` reports
success on `mpGapTable` even though `sanity_check_structure` flags section 1,
and the whole assembly run completes instead of aborting. -/
theorem check_convert_accepts_discontinuous :
    check_convert_structure mpGapTable = (true, mpGapTable) ∧
    misalignedSections (toSegments mpGapTable) = [some 1] ∧
    sanity_check_structure (toSegments mpGapTable) = false ∧
    (assemble_structure inpDiscontinuousMP).outcome = .finished := by
  have hm : misalignedSections (toSegments mpGapTable) = [some 1] := by
    norm_num [misalignedSections, toSegments, mpGapTable, toSeg, cellToQ,
      cellToQOpt, List.filterMap_cons]
  refine ⟨rfl, hm, ?_, rfl⟩
  rw [sanity_check_structure, hm]
  rfl

/-- C2.  Splitting the single segment `{top 10, bottom 0, d_top 6, d_bot 4}`
at `z = 5`: the inserted lower half carries the interpolated diameter
`d(5) = 5` as its `D, top [m]`, but the source never updates the original
(upper) row's `D, bottom [m]`, which stays `4`; the upper half therefore does
not carry `d(z)` at its bottom and the two halves disagree at the cut,
contradicting the specified result `[{10,5,6,5}, {5,0,5,4}]`. -/
theorem add_element_upper_diameter_not_interpolated :
    add_element [⟨some 1, 10, 0, 6, 4, 50, none⟩] 5 =
      [⟨some 1, 10, 5, 6, 4, 50, none⟩, ⟨none, 5, 0, 5, 4, 50, none⟩] ∧
    (add_element [⟨some 1, 10, 0, 6, 4, 50, none⟩] 5).map
        (fun s => (s.top, s.bottom, s.dTop, s.dBottom)) ≠
      [(10, 5, 6, 5), (5, 0, 5, 4)] := by
  have h1 : add_element [⟨some 1, 10, 0, 6, 4, 50, none⟩] 5 =
      [⟨some 1, 10, 5, 6, 4, 50, none⟩, ⟨none, 5, 0, 5, 4, 50, none⟩] := by
    simp [add_element, add_element_run, hasBoundary, straddlers, straddles,
      List.enum, List.enumFrom]
    norm_num
  refine ⟨h1, ?_⟩
  rw [h1]
  simp

/-- C3.  When no segment (or more than one) strictly straddles `z`, the
source prints a diagnostic and returns the table unchanged — it neither
raises nor returns `None` (contradicting its docstring), so a run whose
skirt-path interpolation is out of bounds continues and finishes instead of
aborting. -/
theorem add_element_failure_does_not_abort :
    add_element_run [⟨some 1, 12, 8, 5, 5, 50, some "TP"⟩] 20 =
      ([⟨some 1, 12, 8, 5, 5, 50, some "TP"⟩], some .outsideBounds) ∧
    add_element_run
        [⟨some 1, 10, 0, 6, 4, 50, none⟩, ⟨some 2, 9, 1, 6, 4, 50, none⟩] 5 =
      ([⟨some 1, 10, 0, 6, 4, 50, none⟩, ⟨some 2, 9, 1, 6, 4, 50, none⟩],
        some .notConsecutive) ∧
    add_element (tagAffil "TP" (toSegments tpLowTable)) 12 =
      tagAffil "TP" (toSegments tpLowTable) ∧
    (assemble_structure inpInterpFails).outcome = .finished := by
  exact ⟨rfl, rfl, rfl, rfl⟩

/-! ## Idempotence of the node interpolator -/

theorem add_element_of_hasBoundary (df : List Segment) (z : ℚ)
    (h : hasBoundary z df = true) : add_element df z = df := by
  simp [add_element, add_element_run, h]

/-- After any call, either the table is unchanged or the target elevation now
occurs as a `Top [m]` boundary (the freshly inserted node). -/
theorem add_element_self_or_boundary (df : List Segment) (z : ℚ) :
    add_element df z = df ∨ hasBoundary z (add_element df z) = true := by
  unfold add_element add_element_run
  by_cases hb : hasBoundary z df
  · simp [hb]
  · simp only [hb, Bool.false_eq_true, if_false]
    cases hstr : straddlers df z with
    | nil => simp
    | cons hd tl =>
      obtain ⟨i, s⟩ := hd
      cases tl with
      | nil =>
        right
        simp [hasBoundary, List.any_append]
      | cons hd2 tl2 => simp

/-- C8.  The node interpolator is idempotent: a second call with the same
elevation returns the same table (either the first call already left the
table unchanged, or the inserted node makes `z` an existing boundary and the
second call hits the early-return branch). -/
theorem add_element_idempotent (df : List Segment) (z : ℚ) :
    add_element (add_element df z) z = add_element df z := by
  rcases add_element_self_or_boundary df z with h | h
  · rw [h]
    exact h
  · exact add_element_of_hasBoundary _ _ h

/-! ## Non-atomicity of `replace_db_element` -/

/-- C10.  If the replacement identifier is unique in the updated META but the
structure data contains a NaN, `replace_db_element` returns `False` with the
old data table already dropped while the stored META is left untouched (still
referencing the old identifier): the failure is observed only after the
destructive drop. -/
theorem replace_db_element_drops_before_validation
    (db : DB) (sd am : List (List Cell)) (mi : DbMetaRow) (old_id : String)
    (huniq : ((db.meta.map (fun r => if r.identifier = old_id then mi else r)).filter
        (fun r => r.identifier = mi.identifier)).length ≤ 1)
    (hnan : hasNanTable sd = true) :
    (replace_db_element db sd am mi old_id).1 = false ∧
    (replace_db_element db sd am mi old_id).2.meta = db.meta ∧
    ∀ p ∈ (replace_db_element db sd am mi old_id).2.tables, p.1 ≠ old_id := by
  have hres : replace_db_element db sd am mi old_id = (false, drop_db_table db old_id) := by
    unfold replace_db_element
    rw [if_neg (by omega)]
    simp [write_db_element_data, hnan]
  rw [hres]
  refine ⟨rfl, rfl, ?_⟩
  intro p hp
  simp only [drop_db_table, List.mem_filter] at hp
  simpa using hp.2

/-- Closed witness for `replace_db_element_drops_before_validation`: a
database holding table `OLD` (referenced by META) being replaced under the
fresh name `NEW` with NaN-containing data. -/
theorem replace_db_element_drops_before_validation_witness :
    ((([⟨"OLD", []⟩] : List DbMetaRow).map
        (fun r => if r.identifier = "OLD" then (⟨"NEW", []⟩ : DbMetaRow) else r)).filter
        (fun r => r.identifier = "NEW")).length ≤ 1 ∧
    hasNanTable [[Cell.nan]] = true ∧
    ((replace_db_element ⟨[⟨"OLD", []⟩], [("OLD", [[Cell.num 1]])]⟩
        [[Cell.nan]] [] ⟨"NEW", []⟩ "OLD").1 = false ∧
      (replace_db_element ⟨[⟨"OLD", []⟩], [("OLD", [[Cell.num 1]])]⟩
        [[Cell.nan]] [] ⟨"NEW", []⟩ "OLD").2.meta = [⟨"OLD", []⟩] ∧
      ∀ p ∈ (replace_db_element ⟨[⟨"OLD", []⟩], [("OLD", [[Cell.num 1]])]⟩
        [[Cell.nan]] [] ⟨"NEW", []⟩ "OLD").2.tables, p.1 ≠ "OLD") :=
  ⟨by decide, by decide,
    replace_db_element_drops_before_validation
      ⟨[⟨"OLD", []⟩], [("OLD", [[Cell.num 1]])]⟩ [[Cell.nan]] [] ⟨"NEW", []⟩ "OLD"
      (by decide) (by decide)⟩

/-! ## Stage lemmas for `assemble_structure` -/

theorem assemble_structure_noRNA (inp : AssembleInput)
    (hMP : (check_convert_structure inp.mpRaw).1 = true)
    (hTP : (check_convert_structure inp.tpRaw).1 = true)
    (hTW : (check_convert_structure inp.towerRaw).1 = true)
    (hrna : inp.rnaConfig = "") :
    assemble_structure inp = assembleRefs inp [] [.noRNA] := by
  unfold assemble_structure
  simp [hMP, hTP, hTW, hrna]

theorem assemble_structure_withRNA (inp : AssembleInput)
    (hMP : (check_convert_structure inp.mpRaw).1 = true)
    (hTP : (check_convert_structure inp.tpRaw).1 = true)
    (hTW : (check_convert_structure inp.towerRaw).1 = true)
    (hrna : inp.rnaConfig ≠ "")
    (hin : inp.rnaIds.contains inp.rnaConfig = true) :
    assemble_structure inp = assembleRefs inp [.rna inp.rnaConfig] [] := by
  have hmem : inp.rnaConfig ∈ inp.rnaIds := by simpa using hin
  unfold assemble_structure
  simp [hMP, hTP, hTW, hrna, hmem]

theorem assembleRefs_same (inp : AssembleInput) (w : List WriteEvent)
    (m : List Message) (v : String) (rest : List String)
    (hsame : all_same_ignoring_none (metaRefs inp) = true)
    (hfm : (metaRefs inp).filterMap id = v :: rest) :
    assembleRefs inp w m = assembleJunction inp w (m ++ [.refsSame]) (some v) := by
  unfold assembleRefs
  simp [hsame, hfm]

theorem assembleRefs_conflict_proceed (inp : AssembleInput) (w : List WriteEvent)
    (m : List Message)
    (hsame : all_same_ignoring_none (metaRefs inp) = false)
    (hyes : inp.ans.refConflictYes = true) :
    assembleRefs inp w m = assembleJunction inp w (m ++ [.refsDiffer]) none := by
  unfold assembleRefs
  simp [hsame, hyes]

theorem assembleRefs_allNone (inp : AssembleInput) (w : List WriteEvent)
    (m : List Message)
    (hfm : (metaRefs inp).filterMap id = []) :
    assembleRefs inp w m = ⟨.crashed .indexError, w, m⟩ := by
  unfold assembleRefs
  simp [all_same_ignoring_none, hfm]

theorem assembleJunction_gap (inp : AssembleInput) (w : List WriteEvent)
    (m : List Message) (rr : Option String) (mph : Segment) (mpRest : List Segment)
    (tpInit : List Segment) (tpl : Segment)
    (hmp : mpSegs inp = mph :: mpRest)
    (htp : tpSegs inp = tpInit ++ [tpl])
    (hgap : mph.top < tpl.bottom) :
    assembleJunction inp w m rr = ⟨.halted, w, m ++ [.gap (tpl.bottom - mph.top)]⟩ := by
  unfold assembleJunction
  dsimp only
  rw [hmp, htp, List.getLast?_concat, List.head?_cons]
  dsimp only
  rw [if_pos hgap]

theorem assembleJunction_grouted (inp : AssembleInput) (w : List WriteEvent)
    (m : List Message) (rr : Option String) (mph : Segment) (mpRest : List Segment)
    (tpInit : List Segment) (tpl : Segment)
    (hmp : mpSegs inp = mph :: mpRest)
    (htp : tpSegs inp = tpInit ++ [tpl])
    (hover : tpl.bottom < mph.top)
    (hgr : inp.ans.groutedYes = true) :
    assembleJunction inp w m rr =
      assembleTower inp w
        (m ++ [.overlapPrompt (mph.top - tpl.bottom), .underConstruction]) rr
        (seabedOf inp) (mph :: mpRest) (towerSegs inp) := by
  unfold assembleJunction
  dsimp only
  rw [hmp, htp, List.getLast?_concat, List.head?_cons]
  dsimp only
  rw [if_neg (by exact fun hc => absurd hover (not_lt.2 hc.le)), if_pos hover, hgr]
  simp

theorem assembleJunction_skirt (inp : AssembleInput) (w : List WriteEvent)
    (m : List Message) (rr : Option String) (mph : Segment) (mpRest : List Segment)
    (tpInit : List Segment) (tpl : Segment)
    (hmp : mpSegs inp = mph :: mpRest)
    (htp : tpSegs inp = tpInit ++ [tpl])
    (hover : tpl.bottom < mph.top)
    (hgr : inp.ans.groutedYes = false) :
    assembleJunction inp w m rr =
      assembleTower inp
        (w ++ [.skirt (skirtSegments (tpSegs inp) mph.top),
          .skirtPointMass (skirtCenterOfMass inp.rho (skirtSegments (tpSegs inp) mph.top))
            ((skirtMassList inp.rho (skirtSegments (tpSegs inp) mph.top)).sum)])
        (m ++ [.overlapPrompt (mph.top - tpl.bottom)]) rr
        (seabedOf inp) (tpTruncated (tpSegs inp) mph.top ++ (mph :: mpRest))
        (towerSegs inp) := by
  unfold assembleJunction
  dsimp only
  rw [hmp, htp, List.getLast?_concat, List.head?_cons]
  dsimp only
  rw [if_neg (by exact fun hc => absurd hover (not_lt.2 hc.le)), if_pos hover, hgr]
  simp

theorem assembleJunction_perfect (inp : AssembleInput) (w : List WriteEvent)
    (m : List Message) (rr : Option String) (mph : Segment) (mpRest : List Segment)
    (tpInit : List Segment) (tpl : Segment)
    (hmp : mpSegs inp = mph :: mpRest)
    (htp : tpSegs inp = tpInit ++ [tpl])
    (heq : tpl.bottom = mph.top) :
    assembleJunction inp w m rr =
      assembleTower inp w (m ++ [.perfectFit]) rr (seabedOf inp)
        (tpSegs inp ++ (mph :: mpRest)) (towerSegs inp) := by
  unfold assembleJunction
  dsimp only
  rw [hmp, htp, List.getLast?_concat, List.head?_cons]
  dsimp only
  rw [if_neg (by rw [heq]; exact lt_irrefl _), if_neg (by rw [heq]; exact lt_irrefl _)]

theorem assembleTower_run (inp : AssembleInput) (w : List WriteEvent)
    (m : List Message) (rr : Option String) (sb : Option ℚ)
    (wh : Segment) (wRest : List Segment) (twInit : List Segment) (twl : Segment) :
    assembleTower inp w m rr sb (wh :: wRest) (twInit ++ [twl]) =
      ⟨.finished,
        w ++ [.wholeStructure
            (renumber (shiftSegs (wh.top - twl.bottom) (twInit ++ [twl]) ++ (wh :: wRest))),
          .allAddedMasses (sortMassesDesc
            (tagMass "MP" inp.mpMasses ++ tagMass "TP" inp.tpMasses
              ++ tagMass "TOWER" (inp.towerMasses.map (fun r =>
                { r with top := r.top + (wh.top - twl.bottom),
                         bottom := r.bottom.map (fun b => b + (wh.top - twl.bottom)) })))),
          .structureMeta rr sb], m⟩ := by
  unfold assembleTower
  rw [List.getLast?_concat, List.head?_cons]

/-- C4.  Whenever the MP top elevation is strictly below the TP bottom
elevation, a run that has reached the junction check (valid tables, RNA
selection passed, height-reference stage passed) halts, its messages report
the gap `TP_bot − MP_top`, and no assembly output table is written (when no
RNA was selected, nothing at all is written; with an RNA selection only the
`RNA` input echo was written before the abort). -/
theorem junction_gap_aborts (inp : AssembleInput) (mph : Segment)
    (mpRest tpInit : List Segment) (tpl : Segment)
    (hMP : (check_convert_structure inp.mpRaw).1 = true)
    (hTP : (check_convert_structure inp.tpRaw).1 = true)
    (hTW : (check_convert_structure inp.towerRaw).1 = true)
    (hrna : inp.rnaConfig = "" ∨ inp.rnaIds.contains inp.rnaConfig = true)
    (hrefs : (all_same_ignoring_none (metaRefs inp) = true ∧
        (metaRefs inp).filterMap id ≠ []) ∨
      (all_same_ignoring_none (metaRefs inp) = false ∧ inp.ans.refConflictYes = true))
    (hmp : mpSegs inp = mph :: mpRest)
    (htp : tpSegs inp = tpInit ++ [tpl])
    (hgap : mph.top < tpl.bottom) :
    (assemble_structure inp).outcome = .halted ∧
    Message.gap (tpl.bottom - mph.top) ∈ (assemble_structure inp).messages ∧
    (∀ x ∈ (assemble_structure inp).writes, isMainOutput x = false) ∧
    (inp.rnaConfig = "" → (assemble_structure inp).writes = []) := by
  have hstage : ∃ w0 m0, assemble_structure inp = assembleRefs inp w0 m0 ∧
      (∀ x ∈ w0, isMainOutput x = false) ∧ (inp.rnaConfig = "" → w0 = []) := by
    by_cases hc : inp.rnaConfig = ""
    · exact ⟨[], [.noRNA], assemble_structure_noRNA inp hMP hTP hTW hc, by simp,
        fun _ => rfl⟩
    · rcases hrna with h0 | h1
      · exact absurd h0 hc
      · exact ⟨[.rna inp.rnaConfig], [], assemble_structure_withRNA inp hMP hTP hTW hc h1,
          by simp [isMainOutput], fun h => absurd h hc⟩
  obtain ⟨w0, m0, he, hmain, hempty⟩ := hstage
  have he2 : ∃ m1 rr, assembleRefs inp w0 m0 = assembleJunction inp w0 m1 rr := by
    rcases hrefs with ⟨hsame, hne⟩ | ⟨hdiff, hyes⟩
    · rcases hfm : (metaRefs inp).filterMap id with _ | ⟨v, rest⟩
      · exact absurd hfm hne
      · exact ⟨m0 ++ [.refsSame], some v, assembleRefs_same inp w0 m0 v rest hsame hfm⟩
    · exact ⟨m0 ++ [.refsDiffer], none, assembleRefs_conflict_proceed inp w0 m0 hdiff hyes⟩
  obtain ⟨m1, rr, he2⟩ := he2
  rw [he, he2, assembleJunction_gap inp w0 m1 rr mph mpRest tpInit tpl hmp htp hgap]
  refine ⟨rfl, by simp, hmain, fun h0 => ?_⟩
  simpa using hempty h0

/-- Closed witness for `junction_gap_aborts`: MP top 10, TP bottom 12, gap 2. -/
theorem junction_gap_aborts_witness :
    (10 : ℚ) < 12 ∧
    ((assemble_structure inpGap).outcome = .halted ∧
      Message.gap (12 - 10 : ℚ) ∈ (assemble_structure inpGap).messages ∧
      (∀ x ∈ (assemble_structure inpGap).writes, isMainOutput x = false) ∧
      (inpGap.rnaConfig = "" → (assemble_structure inpGap).writes = [])) :=
  ⟨by norm_num,
    junction_gap_aborts inpGap ⟨some 1, 10, 0, 5, 5, 50, some "MP"⟩ [] []
      ⟨some 1, 14, 12, 5, 5, 50, some "TP"⟩ rfl rfl rfl (Or.inl rfl)
      (Or.inl ⟨rfl, by decide⟩) rfl rfl (by norm_num)⟩

/-- C6.  When the three height-reference entries are all `None`, they count
as agreeing (no conflict is signalled), but recording the resolved reference
evaluates `[v for v in [...] if v is not None][0]` on an empty list: the run
crashes with an uncaught `IndexError` instead of completing. -/
theorem allNone_refs_crashes (inp : AssembleInput)
    (hMP : (check_convert_structure inp.mpRaw).1 = true)
    (hTP : (check_convert_structure inp.tpRaw).1 = true)
    (hTW : (check_convert_structure inp.towerRaw).1 = true)
    (hrna : inp.rnaConfig = "" ∨ inp.rnaIds.contains inp.rnaConfig = true)
    (h1 : inp.mpMeta.heightRef = none) (h2 : inp.tpMeta.heightRef = none)
    (h3 : inp.towerMeta.heightRef = none) :
    (assemble_structure inp).outcome = .crashed .indexError := by
  have hfm : (metaRefs inp).filterMap id = [] := by simp [metaRefs, h1, h2, h3]
  have hstage : ∃ w0 m0, assemble_structure inp = assembleRefs inp w0 m0 := by
    by_cases hc : inp.rnaConfig = ""
    · exact ⟨[], [.noRNA], assemble_structure_noRNA inp hMP hTP hTW hc⟩
    · rcases hrna with h0 | h1
      · exact absurd h0 hc
      · exact ⟨[.rna inp.rnaConfig], [], assemble_structure_withRNA inp hMP hTP hTW hc h1⟩
  obtain ⟨w0, m0, he⟩ := hstage
  rw [he, assembleRefs_allNone inp w0 m0 hfm]

/-- Closed witness for `allNone_refs_crashes`: all three references `None`. -/
theorem allNone_refs_crashes_witness :
    inpAllNoneRefs.mpMeta.heightRef = none ∧
    (assemble_structure inpAllNoneRefs).outcome = .crashed .indexError :=
  ⟨rfl, allNone_refs_crashes inpAllNoneRefs rfl rfl rfl (Or.inl rfl) rfl rfl rfl⟩

/-! ## Affiliation bookkeeping lemmas -/

theorem tagAffil_mem_affil (a : String) (l : List Segment) :
    ∀ s ∈ tagAffil a l, s.affiliation = some a := by
  intro s hs
  simp only [tagAffil, List.mem_map] at hs
  obtain ⟨x, _, rfl⟩ := hs
  rfl

theorem shiftSegs_mem_affil (off : ℚ) (a : String) (l : List Segment)
    (hall : ∀ s ∈ l, s.affiliation = some a) :
    ∀ s ∈ shiftSegs off l, s.affiliation = some a := by
  intro s hs
  simp only [shiftSegs, List.mem_map] at hs
  obtain ⟨x, hx, rfl⟩ := hs
  exact hall x hx

theorem straddlers_snd_mem (df : List Segment) (z : ℚ) (i : ℕ) (s : Segment)
    (h : (i, s) ∈ straddlers df z) : s ∈ df := by
  have h1 : (i, s) ∈ df.enum := (List.mem_filter.1 h).1
  exact List.getElem?_mem (List.mem_enum_iff_getElem?.1 h1)

/-- `add_element` only produces rows whose `Affiliation` already occurred in
the input table (the inserted row copies it from the split segment). -/
theorem add_element_mem_affil (df : List Segment) (z : ℚ) (a : Option String)
    (hall : ∀ s ∈ df, s.affiliation = a) :
    ∀ s ∈ add_element df z, s.affiliation = a := by
  unfold add_element add_element_run
  by_cases hb : hasBoundary z df
  · simpa [hb] using hall
  · simp only [hb, Bool.false_eq_true, if_false]
    cases hstr : straddlers df z with
    | nil => simpa using hall
    | cons hd tl =>
      obtain ⟨i, s0⟩ := hd
      have hs0 : s0 ∈ df :=
        straddlers_snd_mem df z i s0 (by rw [hstr]; exact List.mem_cons_self _ _)
      cases tl with
      | nil =>
        intro s hs
        dsimp only at hs
        have hset : ∀ x ∈ df.set i { s0 with bottom := z }, x.affiliation = a := by
          intro x hx
          rcases List.mem_or_eq_of_mem_set hx with hx1 | rfl
          · exact hall x hx1
          · exact hall s0 hs0
        rcases List.mem_append.1 hs with hs1 | hs2
        · rcases List.mem_append.1 hs1 with hs3 | hs4
          · exact hset s (List.Sublist.mem hs3 (List.take_sublist _ _))
          · have : s = ⟨none, z, s0.bottom,
                (s0.dTop - s0.dBottom) * ((z - s0.bottom) / (s0.top - s0.bottom)) + s0.dBottom,
                s0.dBottom, s0.t, s0.affiliation⟩ := by simpa using hs4
            rw [this]
            exact hall s0 hs0
        · exact hset s (List.Sublist.mem hs2 (List.drop_sublist _ _))
      | cons hd2 tl2 => simpa using hall

theorem tpTruncated_mem_affil (tp : List Segment) (z : ℚ) (a : Option String)
    (hall : ∀ s ∈ tp, s.affiliation = a) :
    ∀ s ∈ tpTruncated tp z, s.affiliation = a := fun s hs =>
  add_element_mem_affil tp z a hall s (List.mem_filter.1 hs).1

/-! ## Reaching the junction stage, and membership in the final writes -/

theorem mem_assembleTower_writes (inp : AssembleInput) (w : List WriteEvent)
    (m : List Message) (rr : Option String) (sb : Option ℚ)
    (whole towerT : List Segment) (x : WriteEvent) (hx : x ∈ w) :
    x ∈ (assembleTower inp w m rr sb whole towerT).writes := by
  unfold assembleTower
  cases whole.head? <;> cases towerT.getLast? <;> simp [hx]

/-- A run with valid tables, a passing RNA selection and a passing
height-reference stage reaches the junction stage, having written at most the
`RNA` echo. -/
theorem assemble_reaches_junction (inp : AssembleInput)
    (hMP : (check_convert_structure inp.mpRaw).1 = true)
    (hTP : (check_convert_structure inp.tpRaw).1 = true)
    (hTW : (check_convert_structure inp.towerRaw).1 = true)
    (hrna : inp.rnaConfig = "" ∨ inp.rnaIds.contains inp.rnaConfig = true)
    (hrefs : (all_same_ignoring_none (metaRefs inp) = true ∧
        (metaRefs inp).filterMap id ≠ []) ∨
      (all_same_ignoring_none (metaRefs inp) = false ∧ inp.ans.refConflictYes = true)) :
    ∃ w0 m1 rr, assemble_structure inp = assembleJunction inp w0 m1 rr ∧
      (∀ x ∈ w0, isMainOutput x = false) ∧ (inp.rnaConfig = "" → w0 = []) := by
  have hstage : ∃ w0 m0, assemble_structure inp = assembleRefs inp w0 m0 ∧
      (∀ x ∈ w0, isMainOutput x = false) ∧ (inp.rnaConfig = "" → w0 = []) := by
    by_cases hc : inp.rnaConfig = ""
    · exact ⟨[], [.noRNA], assemble_structure_noRNA inp hMP hTP hTW hc, by simp,
        fun _ => rfl⟩
    · rcases hrna with h0 | h1
      · exact absurd h0 hc
      · exact ⟨[.rna inp.rnaConfig], [], assemble_structure_withRNA inp hMP hTP hTW hc h1,
          by simp [isMainOutput], fun h => absurd h hc⟩
  obtain ⟨w0, m0, he, hmain, hempty⟩ := hstage
  rcases hrefs with ⟨hsame, hne⟩ | ⟨hdiff, hyes⟩
  · rcases hfm : (metaRefs inp).filterMap id with _ | ⟨v, rest⟩
    · exact absurd hfm hne
    · exact ⟨w0, m0 ++ [.refsSame], some v,
        by rw [he, assembleRefs_same inp w0 m0 v rest hsame hfm], hmain, hempty⟩
  · exact ⟨w0, m0 ++ [.refsDiffer], none,
      by rw [he, assembleRefs_conflict_proceed inp w0 m0 hdiff hyes], hmain, hempty⟩

/-- C5.  In the skirt-extraction overlap path, the run writes a `SKIRT` table
equal to the post-insertion TP rows with `Top [m] <= MP_top` (affiliation
`SKIRT`, `Section` dropped), writes a single SKIRT point mass whose mass is
the sum of the per-segment `calc_weight` masses and whose elevation is the
mass-weighted average of the per-segment `center_of_mass_hollow_frustum`
centroids, and continues the assembly with TP truncated to exactly the
post-insertion rows with `Bottom [m] >= MP_top`. -/
theorem skirt_extraction_outputs (inp : AssembleInput) (mph : Segment)
    (mpRest tpInit : List Segment) (tpl : Segment)
    (hMP : (check_convert_structure inp.mpRaw).1 = true)
    (hTP : (check_convert_structure inp.tpRaw).1 = true)
    (hTW : (check_convert_structure inp.towerRaw).1 = true)
    (hrna : inp.rnaConfig = "" ∨ inp.rnaIds.contains inp.rnaConfig = true)
    (hrefs : (all_same_ignoring_none (metaRefs inp) = true ∧
        (metaRefs inp).filterMap id ≠ []) ∨
      (all_same_ignoring_none (metaRefs inp) = false ∧ inp.ans.refConflictYes = true))
    (hmp : mpSegs inp = mph :: mpRest)
    (htp : tpSegs inp = tpInit ++ [tpl])
    (hover : tpl.bottom < mph.top)
    (hgr : inp.ans.groutedYes = false) :
    WriteEvent.skirt (skirtSegments (tpSegs inp) mph.top)
      ∈ (assemble_structure inp).writes ∧
    WriteEvent.skirtPointMass
        (skirtCenterOfMass inp.rho (skirtSegments (tpSegs inp) mph.top))
        ((skirtMassList inp.rho (skirtSegments (tpSegs inp) mph.top)).sum)
      ∈ (assemble_structure inp).writes ∧
    ∃ w2 m2 rr, assemble_structure inp =
      assembleTower inp w2 m2 rr (seabedOf inp)
        (tpTruncated (tpSegs inp) mph.top ++ mpSegs inp) (towerSegs inp) := by
  obtain ⟨w0, m1, rr, he, hmain, hempty⟩ :=
    assemble_reaches_junction inp hMP hTP hTW hrna hrefs
  have hj := assembleJunction_skirt inp w0 m1 rr mph mpRest tpInit tpl hmp htp hover hgr
  refine ⟨?_, ?_, ⟨_, _, rr, by rw [he, hj, hmp]⟩⟩
  · rw [he, hj]
    apply mem_assembleTower_writes
    simp
  · rw [he, hj]
    apply mem_assembleTower_writes
    simp

/-- Closed witness for `skirt_extraction_outputs`: MP top 10, TP 8..12,
skirt mode. -/
theorem skirt_extraction_outputs_witness :
    (8 : ℚ) < 10 ∧ inpOverlap.ans.groutedYes = false ∧
    (WriteEvent.skirt (skirtSegments (tpSegs inpOverlap) 10)
        ∈ (assemble_structure inpOverlap).writes ∧
      WriteEvent.skirtPointMass
          (skirtCenterOfMass inpOverlap.rho (skirtSegments (tpSegs inpOverlap) 10))
          ((skirtMassList inpOverlap.rho (skirtSegments (tpSegs inpOverlap) 10)).sum)
        ∈ (assemble_structure inpOverlap).writes ∧
      ∃ w2 m2 rr, assemble_structure inpOverlap =
        assembleTower inpOverlap w2 m2 rr (seabedOf inpOverlap)
          (tpTruncated (tpSegs inpOverlap) 10 ++ mpSegs inpOverlap)
          (towerSegs inpOverlap)) :=
  ⟨by norm_num, rfl,
    skirt_extraction_outputs inpOverlap ⟨some 1, 10, 0, 5, 5, 50, some "MP"⟩ [] []
      ⟨some 1, 12, 8, 5, 5, 50, some "TP"⟩ rfl rfl rfl (Or.inl rfl)
      (Or.inl ⟨rfl, by decide⟩) rfl rfl (by norm_num) rfl⟩

/-! ## Renumbering facts and the finished-run decomposition -/

theorem renumber_map_fst (l : List Segment) :
    (renumber l).map Prod.fst = List.range' 1 l.length := by
  rw [renumber, List.map_map, List.range'_eq_map_range, ← List.enum_map_fst l,
    List.map_map]
  apply List.map_congr_left
  intro a _
  simp [Nat.add_comm]

theorem renumber_map_snd (l : List Segment) :
    (renumber l).map Prod.snd = l := by
  rw [renumber, List.map_map]
  have hc : (Prod.snd ∘ fun p : ℕ × Segment => (p.1 + 1, p.2)) = Prod.snd := by
    funext p
    rfl
  rw [hc, List.enum_map_snd]

theorem assemble_structure_finished_stage (inp : AssembleInput)
    (h : (assemble_structure inp).outcome = .finished) :
    ∃ w0 m0, assemble_structure inp = assembleRefs inp w0 m0 := by
  unfold assemble_structure at h ⊢
  by_cases hok : ((check_convert_structure inp.mpRaw).1 &&
      (check_convert_structure inp.tpRaw).1 && (check_convert_structure inp.towerRaw).1) = true
  · rw [if_neg (by simp [hok])] at h ⊢
    by_cases hc : inp.rnaConfig = ""
    · rw [if_pos hc] at h ⊢
      exact ⟨_, _, rfl⟩
    · rw [if_neg hc] at h ⊢
      by_cases hin : inp.rnaIds.contains inp.rnaConfig = true
      · rw [if_pos hin] at h ⊢
        exact ⟨_, _, rfl⟩
      · rw [if_neg hin] at h
        simp at h
  · rw [if_pos hok] at h
    simp at h

theorem assembleRefs_finished_stage (inp : AssembleInput) (w : List WriteEvent)
    (m : List Message) (h : (assembleRefs inp w m).outcome = .finished) :
    ∃ m1 rr, assembleRefs inp w m = assembleJunction inp w m1 rr := by
  unfold assembleRefs at h ⊢
  dsimp only at h ⊢
  by_cases hs : all_same_ignoring_none (metaRefs inp) = true
  · rw [if_pos hs] at h ⊢
    rcases hfm : (metaRefs inp).filterMap id with _ | ⟨v, rest⟩
    · rw [hfm] at h
      simp at h
    · exact ⟨_, _, rfl⟩
  · rw [if_neg hs] at h ⊢
    by_cases hy : inp.ans.refConflictYes = true
    · rw [if_pos hy] at h ⊢
      exact ⟨_, _, rfl⟩
    · rw [if_neg hy] at h
      simp at h

theorem assembleJunction_finished_shapes (inp : AssembleInput) (w : List WriteEvent)
    (m : List Message) (rr : Option String)
    (h : (assembleJunction inp w m rr).outcome = .finished) :
    ∃ mph mpRest tpInit tpl,
      mpSegs inp = mph :: mpRest ∧ tpSegs inp = tpInit ++ [tpl] := by
  rcases hmp : mpSegs inp with _ | ⟨mph, mpRest⟩
  · exfalso
    unfold assembleJunction at h
    dsimp only at h
    rw [hmp] at h
    rcases (tpSegs inp).getLast? with _ | tpl <;> simp at h
  · rcases List.eq_nil_or_concat (tpSegs inp) with htp | ⟨tpInit, tpl, htp⟩
    · exfalso
      unfold assembleJunction at h
      dsimp only at h
      rw [hmp, htp] at h
      simp at h
    · exact ⟨mph, mpRest, tpInit, tpl, rfl, by rw [htp, List.concat_eq_append]⟩

/-- In every finishing junction path the structure handed to the tower stage
is some all-`TP` block (possibly empty or truncated) on top of the MP table. -/
theorem assembleJunction_finished_tpPart (inp : AssembleInput) (w : List WriteEvent)
    (m : List Message) (rr : Option String) (mph : Segment)
    (mpRest tpInit : List Segment) (tpl : Segment)
    (hmp : mpSegs inp = mph :: mpRest)
    (htp : tpSegs inp = tpInit ++ [tpl])
    (hfin : (assembleJunction inp w m rr).outcome = .finished) :
    ∃ tpPart w2 m2,
      assembleJunction inp w m rr =
        assembleTower inp w2 m2 rr (seabedOf inp) (tpPart ++ mpSegs inp)
          (towerSegs inp) ∧
      ∀ s ∈ tpPart, s.affiliation = some "TP" := by
  have htpAffil : ∀ s ∈ tpSegs inp, s.affiliation = some "TP" :=
    tagAffil_mem_affil "TP" (toSegments inp.tpRaw)
  by_cases hgap : mph.top < tpl.bottom
  · rw [assembleJunction_gap inp w m rr mph mpRest tpInit tpl hmp htp hgap] at hfin
    simp at hfin
  · by_cases hover : tpl.bottom < mph.top
    · by_cases hgr : inp.ans.groutedYes = true
      · refine ⟨[], w, m ++ [.overlapPrompt (mph.top - tpl.bottom), .underConstruction],
          ?_, by simp⟩
        rw [assembleJunction_grouted inp w m rr mph mpRest tpInit tpl hmp htp hover hgr,
          hmp]
        rfl
      · refine ⟨tpTruncated (tpSegs inp) mph.top, _, _,
          by rw [assembleJunction_skirt inp w m rr mph mpRest tpInit tpl hmp htp hover
            (by simpa using hgr), hmp], ?_⟩
        exact tpTruncated_mem_affil (tpSegs inp) mph.top (some "TP") htpAffil
    · have heq : tpl.bottom = mph.top :=
        le_antisymm (not_lt.1 hgap) (not_lt.1 hover)
      exact ⟨tpSegs inp, w, m ++ [.perfectFit],
        by rw [assembleJunction_perfect inp w m rr mph mpRest tpInit tpl hmp htp heq, hmp],
        htpAffil⟩

/-- C7.  Every completed assembly writes a `WHOLE_STRUCTURE` table that is
the renumbering of a top-to-bottom concatenation of a TOWER block, a TP block
and an MP block; the new `Section` column is exactly `1..N` with no gaps, and
the rows themselves (including the renamed `local Section` field) are
preserved. -/
theorem assembled_sections_contiguous (inp : AssembleInput)
    (h : (assemble_structure inp).outcome = .finished) :
    ∃ l1 l2 l3,
      WriteEvent.wholeStructure (renumber (l1 ++ l2 ++ l3))
        ∈ (assemble_structure inp).writes ∧
      (∀ s ∈ l1, s.affiliation = some "TOWER") ∧
      (∀ s ∈ l2, s.affiliation = some "TP") ∧
      (∀ s ∈ l3, s.affiliation = some "MP") ∧
      (renumber (l1 ++ l2 ++ l3)).map Prod.fst =
        List.range' 1 (l1 ++ l2 ++ l3).length ∧
      (renumber (l1 ++ l2 ++ l3)).map Prod.snd = l1 ++ l2 ++ l3 := by
  obtain ⟨w0, m0, he0⟩ := assemble_structure_finished_stage inp h
  rw [he0] at h
  obtain ⟨m1, rr, he1⟩ := assembleRefs_finished_stage inp w0 m0 h
  rw [he1] at h
  obtain ⟨mph, mpRest, tpInit, tpl, hmp, htp⟩ :=
    assembleJunction_finished_shapes inp w0 m1 rr h
  obtain ⟨tpPart, w2, m2, he2, htpPart⟩ :=
    assembleJunction_finished_tpPart inp w0 m1 rr mph mpRest tpInit tpl hmp htp h
  rw [he2] at h
  rcases hwhole : tpPart ++ mpSegs inp with _ | ⟨wh, wRest⟩
  · exfalso
    unfold assembleTower at h
    rw [hwhole] at h
    rcases (towerSegs inp).getLast? with _ | twl <;> simp at h
  · rcases List.eq_nil_or_concat (towerSegs inp) with htw | ⟨twInit, twl, htw⟩
    · exfalso
      unfold assembleTower at h
      rw [htw] at h
      rcases (wh :: wRest).head? with _ | x <;> simp at h
    · rw [List.concat_eq_append] at htw
      refine ⟨shiftSegs (wh.top - twl.bottom) (towerSegs inp), tpPart, mpSegs inp,
        ?_, ?_, htpPart, ?_, renumber_map_fst _, renumber_map_snd _⟩
      · rw [he0, he1, he2]
        have hrun := assembleTower_run inp w2 m2 rr (seabedOf inp) wh wRest twInit twl
        rw [← htw, ← hwhole] at hrun
        rw [hrun]
        simp only [List.append_assoc]
        simp
      · exact shiftSegs_mem_affil _ "TOWER" _
          (tagAffil_mem_affil "TOWER" (toSegments inp.towerRaw))
      · exact tagAffil_mem_affil "MP" (toSegments inp.mpRaw)

/-- Closed witness for `assembled_sections_contiguous`: the overlap/skirt run
completes and its output table is renumbered `1..N`. -/
theorem assembled_sections_contiguous_witness :
    (assemble_structure inpOverlap).outcome = .finished ∧
    ∃ l1 l2 l3,
      WriteEvent.wholeStructure (renumber (l1 ++ l2 ++ l3))
        ∈ (assemble_structure inpOverlap).writes ∧
      (∀ s ∈ l1, s.affiliation = some "TOWER") ∧
      (∀ s ∈ l2, s.affiliation = some "TP") ∧
      (∀ s ∈ l3, s.affiliation = some "MP") ∧
      (renumber (l1 ++ l2 ++ l3)).map Prod.fst =
        List.range' 1 (l1 ++ l2 ++ l3).length ∧
      (renumber (l1 ++ l2 ++ l3)).map Prod.snd = l1 ++ l2 ++ l3 :=
  ⟨rfl, assembled_sections_contiguous inpOverlap rfl⟩

/-! ## Frustum volume positivity and centroid bounds -/

theorem frustumComRel_mul_volume (r1 r2 h : ℝ)
    (hden : r1 ^ 2 + r1 * r2 + r2 ^ 2 ≠ 0) :
    frustumComRel r1 r2 h * frustumVolume r1 r2 h =
      Real.pi * h ^ 2 * (r1 ^ 2 + 2 * r1 * r2 + 3 * r2 ^ 2) / 12 := by
  unfold frustumComRel frustumVolume
  field_simp
  ring

theorem frustumVolume_sub (r1 r2 t h : ℝ) :
    frustumVolume (r1 + t) (r2 + t) h - frustumVolume r1 r2 h =
      Real.pi * h * t * (r1 + r2 + t) := by
  unfold frustumVolume
  ring

/-- C9.  For a frustum with positive wall thickness, both diameters strictly
greater than `2t` and positive height, `calc_weight` (density times hollow
volume) is strictly positive for `rho > 0`, and the composite centre of mass
`center_of_mass_hollow_frustum(d_bot, d_top, z_bot, z_top, t)` lies strictly
between `z_bot` and `z_top`. -/
theorem frustum_weight_pos_centroid_between
    (rho t z_top z_bot d_top d_bot : ℝ)
    (hrho : 0 < rho) (ht : 0 < t) (hdt : 2 * t < d_top) (hdb : 2 * t < d_bot)
    (hh : z_bot < z_top) :
    0 < calc_weight rho t z_top z_bot d_top d_bot ∧
    z_bot < center_of_mass_hollow_frustum d_bot d_top z_bot z_top t ∧
    center_of_mass_hollow_frustum d_bot d_top z_bot z_top t < z_top := by
  have hz : (0:ℝ) < z_top - z_bot := by linarith
  have hpi := Real.pi_pos
  have hr1 : (0:ℝ) < d_bot / 2 := by linarith
  have hr2 : (0:ℝ) < d_top / 2 := by linarith
  have hden1 : (d_bot / 2) ^ 2 + (d_bot / 2) * (d_top / 2) + (d_top / 2) ^ 2 ≠ 0 :=
    ne_of_gt (by nlinarith [mul_pos hr1 hr2, sq_nonneg (d_bot / 2), sq_nonneg (d_top / 2)])
  have hdenR : (d_bot / 2 + t) ^ 2 + (d_bot / 2 + t) * (d_top / 2 + t)
      + (d_top / 2 + t) ^ 2 ≠ 0 := by
    have hR1 : (0:ℝ) < d_bot / 2 + t := by linarith
    have hR2 : (0:ℝ) < d_top / 2 + t := by linarith
    refine ne_of_gt ?_
    nlinarith [mul_pos hR1 hR2, sq_nonneg (d_bot / 2 + t), sq_nonneg (d_top / 2 + t)]
  have hcm : center_of_mass_hollow_frustum d_bot d_top z_bot z_top t =
      z_bot + (Real.pi * (z_top - z_bot) ^ 2 * t *
          (2 * (d_bot / 2) + 4 * (d_top / 2) + 3 * t) / 6) /
        (Real.pi * (z_top - z_bot) * t * (d_bot / 2 + d_top / 2 + t)) := by
    unfold center_of_mass_hollow_frustum
    dsimp only
    rw [frustumComRel_mul_volume _ _ _ hdenR, frustumComRel_mul_volume _ _ _ hden1,
      frustumVolume_sub]
    ring
  have hNpos : (0:ℝ) < Real.pi * (z_top - z_bot) ^ 2 * t *
      (2 * (d_bot / 2) + 4 * (d_top / 2) + 3 * t) / 6 :=
    div_pos (mul_pos (mul_pos (mul_pos hpi (pow_pos hz 2)) ht) (by linarith))
      (by norm_num)
  have hDpos : (0:ℝ) < Real.pi * (z_top - z_bot) * t * (d_bot / 2 + d_top / 2 + t) :=
    mul_pos (mul_pos (mul_pos hpi hz) ht) (by linarith)
  have key2 : (0:ℝ) < Real.pi * (z_top - z_bot) ^ 2 * t *
      (4 * (d_bot / 2) + 2 * (d_top / 2) + 3 * t) :=
    mul_pos (mul_pos (mul_pos hpi (pow_pos hz 2)) ht) (by linarith)
  have hfrac := div_pos hNpos hDpos
  have hlt : (Real.pi * (z_top - z_bot) ^ 2 * t *
        (2 * (d_bot / 2) + 4 * (d_top / 2) + 3 * t) / 6) /
      (Real.pi * (z_top - z_bot) * t * (d_bot / 2 + d_top / 2 + t)) <
      z_top - z_bot := by
    rw [div_lt_iff₀ hDpos]
    nlinarith [key2]
  refine ⟨?_, ?_, ?_⟩
  · unfold calc_weight
    dsimp only
    rw [abs_of_pos hz]
    have key : (0:ℝ) < d_top ^ 2 + d_top * d_bot + d_bot ^ 2 - (d_top - 2 * t) ^ 2 -
        (d_top - 2 * t) * (d_bot - 2 * t) - (d_bot - 2 * t) ^ 2 := by
      nlinarith [mul_pos ht (show (0:ℝ) < d_top + d_bot - 2 * t by linarith)]
    have hC : (0:ℝ) < 1 / 3 * Real.pi * (z_top - z_bot) / 4 :=
      div_pos (mul_pos (mul_pos (by norm_num) hpi) hz) (by norm_num)
    exact mul_pos hrho (mul_pos hC key)
  · rw [hcm]
    linarith
  · rw [hcm]
    linarith

/-- Closed witness for `frustum_weight_pos_centroid_between`: `rho = 1`,
`t = 1`, outer diameters 6 (top) and 5 (bottom), elevations 0..2. -/
theorem frustum_weight_pos_centroid_between_witness :
    ((0:ℝ) < 1 ∧ (0:ℝ) < 1 ∧ (2:ℝ) * 1 < 6 ∧ (2:ℝ) * 1 < 5 ∧ (0:ℝ) < 2) ∧
    (0 < calc_weight 1 1 2 0 6 5 ∧
      0 < center_of_mass_hollow_frustum 5 6 0 2 1 ∧
      center_of_mass_hollow_frustum 5 6 0 2 1 < 2) :=
  ⟨⟨by norm_num, by norm_num, by norm_num, by norm_num, by norm_num⟩,
    frustum_weight_pos_centroid_between 1 1 2 0 6 5 (by norm_num) (by norm_num)
      (by norm_num) (by norm_num) (by norm_num)⟩

end GC
